import Mathlib

/-!
Verification development for the BBBP classification workflow (`BBB/BBBP.PY`).

The script loads a table of SMILES identifiers and binary permeability
labels, computes five RDKit descriptors per molecule, filters out records
that fail structural parsing, assembles a feature matrix, performs a
stratified train/test split, tunes a random forest by grid search, and
evaluates and compares models.

External collaborators (RDKit parsing/descriptors, scikit-learn training
and prediction) are opaque services per the specification; they are
represented by abstract parameters, and where a claim is about such a
collaborator itself its documented contract is modelled explicitly.
-/

namespace BBBP

/-- The chemistry collaborator: structural parsing of a SMILES string and
the five scalar descriptor functions used by the script.  `MolFromSmiles`
returns `none` exactly on parse failure. -/
structure Chem (Mol : Type) where
  MolFromSmiles : String → Option Mol
  MolWt : Mol → ℚ
  MolLogP : Mol → ℚ
  NumHDonors : Mol → ℕ
  NumHAcceptors : Mol → ℕ
  TPSA : Mol → ℚ

/-- One row of the raw input table: the SMILES identifier may be missing
(NaN in the CSV), the label is binary. -/
structure RawRow where
  smiles : Option String
  p_np : Fin 2
deriving DecidableEq

/-- A row after `df.dropna` on the smiles column: the identifier is present. -/
structure Row where
  smiles : String
  p_np : Fin 2
deriving DecidableEq

/-- A row after `df["features"] = df["smiles"].apply(compute_descriptors)`:
it additionally carries the (possibly undefined) computed feature vector. -/
structure FeatRow where
  smiles : String
  p_np : Fin 2
  features : Option (List ℚ)
deriving DecidableEq

/-- `compute_descriptors` (BBBP.PY lines 19-29): parse the SMILES string;
on failure return `None`, otherwise the list of the five descriptors in
the fixed order MolWt, MolLogP, NumHDonors, NumHAcceptors, TPSA. -/
def compute_descriptors {Mol : Type} (C : Chem Mol) (smiles : String) : Option (List ℚ) :=
  match C.MolFromSmiles smiles with
  | none => none
  | some mol =>
      some [C.MolWt mol, C.MolLogP mol, (C.NumHDonors mol : ℚ),
            (C.NumHAcceptors mol : ℚ), C.TPSA mol]

/-- `df.dropna` on the smiles column (line 16): keep the rows whose
identifier is present. -/
def dropnaSmiles (rows : List RawRow) : List Row :=
  rows.filterMap (fun r => r.smiles.map (fun s => { smiles := s, p_np := r.p_np }))

/-- `df["features"] = df["smiles"].apply(compute_descriptors)` (line 31). -/
def addFeatures {Mol : Type} (C : Chem Mol) (rows : List Row) : List FeatRow :=
  rows.map (fun r =>
    { smiles := r.smiles, p_np := r.p_np, features := compute_descriptors C r.smiles })

/-- `df = df.dropna(subset=["features"])` (line 32): drop rows whose
computed feature vector is undefined. -/
def dropnaFeatures (rows : List FeatRow) : List FeatRow :=
  rows.filter (fun r => r.features.isSome)

/-- The second validity filter (lines 35-36): re-parse each identifier and
keep only the rows for which parsing succeeds. -/
def filterValidSmiles {Mol : Type} (C : Chem Mol) (rows : List FeatRow) : List FeatRow :=
  rows.filter (fun r => (C.MolFromSmiles r.smiles).isSome)

/-- The rows surviving the whole cleaning pipeline (lines 16-37). -/
def cleanRows {Mol : Type} (C : Chem Mol) (raw : List RawRow) : List FeatRow :=
  filterValidSmiles C (dropnaFeatures (addFeatures C (dropnaSmiles raw)))

/-- The cleaning pipeline with the second validity filter (lines 35-37)
removed; used to state that this filter is a no-op. -/
def cleanRowsNoRefilter {Mol : Type} (C : Chem Mol) (raw : List RawRow) : List FeatRow :=
  dropnaFeatures (addFeatures C (dropnaSmiles raw))

/-- `descriptor_names` (line 40): the fixed order of the five feature
columns. -/
def descriptor_names : List String :=
  ["MolWt", "MolLogP", "NumHDonors", "NumHAcceptors", "TPSA"]

/-- `features_df = pd.DataFrame(df["features"].tolist(), columns=descriptor_names)`
(line 41): each surviving row expanded into named descriptor columns in
the fixed order. -/
def features_df {Mol : Type} (C : Chem Mol) (raw : List RawRow) : List (List (String × ℚ)) :=
  (cleanRows C raw).map (fun r => descriptor_names.zip (r.features.getD []))

/-- `X = df[descriptor_names]` (line 45): the feature matrix, one list of
descriptor values per surviving row. -/
def X {Mol : Type} (C : Chem Mol) (raw : List RawRow) : List (List ℚ) :=
  (cleanRows C raw).map (fun r => r.features.getD [])

/-- `y = df["p_np"]` (line 46): the label vector aligned with `X`. -/
def y {Mol : Type} (C : Chem Mol) (raw : List RawRow) : List (Fin 2) :=
  (cleanRows C raw).map (fun r => r.p_np)

/-- The feature matrix produced when lines 35-37 are removed. -/
def XnoRefilter {Mol : Type} (C : Chem Mol) (raw : List RawRow) : List (List ℚ) :=
  (cleanRowsNoRefilter C raw).map (fun r => r.features.getD [])

/-- The label vector produced when lines 35-37 are removed. -/
def ynoRefilter {Mol : Type} (C : Chem Mol) (raw : List RawRow) : List (Fin 2) :=
  (cleanRowsNoRefilter C raw).map (fun r => r.p_np)

/-- A data-format error: a required column is absent from the input table
(pandas raises `KeyError` at the first access to the missing column). -/
inductive ScriptError where
  | missingColumn (col : String)
deriving DecidableEq

/-- The raw input table together with its header: whether the identifier
column `smiles` and the label column `p_np` are present. -/
structure RawTable where
  hasSmiles : Bool
  hasLabel : Bool
  rows : List RawRow

/-- The script from loading through dataset assembly (lines 15-46),
with column-presence checks at exactly the points where the script first
accesses each column.  The first component counts how many
`compute_descriptors` invocations were performed before the script
finished or failed: the `dropna` on the smiles column (line 16) accesses
`smiles`; descriptor extraction (lines 31-37) then runs over every
surviving row; `p_np` is first accessed at `y = df["p_np"]` (line 46),
after descriptor extraction and the assembly of `X`. -/
def runScript {Mol : Type} (C : Chem Mol) (tbl : RawTable) :
    ℕ × Except ScriptError (List (List ℚ) × List (Fin 2)) :=
  if tbl.hasSmiles = false then
    (0, Except.error (ScriptError.missingColumn ("smiles")))
  else
    let rows := dropnaSmiles tbl.rows
    let kept := filterValidSmiles C (dropnaFeatures (addFeatures C rows))
    if tbl.hasLabel = false then
      (rows.length, Except.error (ScriptError.missingColumn ("p_np")))
    else
      (rows.length,
       Except.ok (kept.map (fun r => r.features.getD []), kept.map (fun r => r.p_np)))

/-- The feature-sampling strategies in the hyperparameter grid (line 66). -/
inductive MaxFeatures where
  | sqrt
  | log2
deriving DecidableEq

/-- A random-forest hyperparameter combination (the keys of `param_grid`,
lines 61-67). -/
structure RFParams where
  n_estimators : ℕ
  max_depth : Option ℕ
  min_samples_split : ℕ
  min_samples_leaf : ℕ
  max_features : MaxFeatures
deriving DecidableEq

/-- The n_estimators values of `param_grid` (line 62). -/
def param_grid_n_estimators : List ℕ := [100, 200]

/-- The max_depth values of `param_grid` (line 63); `none` is Python `None`
(unbounded depth). -/
def param_grid_max_depth : List (Option ℕ) := [none, some 10, some 20]

/-- The min_samples_split values of `param_grid` (line 64). -/
def param_grid_min_samples_split : List ℕ := [2, 5]

/-- The min_samples_leaf values of `param_grid` (line 65). -/
def param_grid_min_samples_leaf : List ℕ := [1, 2]

/-- The max_features values of `param_grid` (line 66). -/
def param_grid_max_features : List MaxFeatures := [MaxFeatures.sqrt, MaxFeatures.log2]

/-- The full hyperparameter grid: every combination of the per-key value
lists (the set GridSearchCV enumerates). -/
def paramCombinations : List RFParams :=
  param_grid_n_estimators.flatMap (fun n =>
    param_grid_max_depth.flatMap (fun d =>
      param_grid_min_samples_split.flatMap (fun s =>
        param_grid_min_samples_leaf.flatMap (fun l =>
          param_grid_max_features.map (fun mf =>
            { n_estimators := n, max_depth := d, min_samples_split := s,
              min_samples_leaf := l, max_features := mf })))))

/-- Modelled from the spec: GridSearchCV with `cv=5` and accuracy scoring
scores each hyperparameter combination by the mean of its five per-fold
accuracies on the training subset; the per-fold accuracies themselves are
internal to the library and are abstract here. -/
def meanCVAccuracy (foldAcc : RFParams → Fin 5 → ℚ) (p : RFParams) : ℚ :=
  (∑ i : Fin 5, foldAcc p i) / 5

/-- Running maximum over a candidate list: keeps the current best unless a
strictly better-scoring candidate appears (so the first of several tied
maxima is kept, matching the first-occurrence tie-break of the search library). -/
def argmaxFrom (score : RFParams → ℚ) : RFParams → List RFParams → RFParams
  | best, [] => best
  | best, q :: qs => argmaxFrom score (if score best < score q then q else best) qs

/-- Modelled from the spec: the selection rule of the exhaustive search —
the combination with the highest score, ties broken by enumeration order. -/
def selectBest (score : RFParams → ℚ) (l : List RFParams) : Option RFParams :=
  match l with
  | [] => none
  | p :: ps => some (argmaxFrom score p ps)

/-- `grid_search.best_estimator_`: the grid combination selected by the
search under the given scoring function. -/
def gridSearchBest (score : RFParams → ℚ) : Option RFParams :=
  selectBest score paramCombinations

/-- The members of `data` carrying class label `c`. -/
def classMembers {α : Type} (data : List (α × Fin 2)) (c : Fin 2) : List (α × Fin 2) :=
  data.filter (fun r => r.2 == c)

/-- Modelled from the spec: `train_test_split(X, y, test_size=0.2,
stratify=y, random_state=42)` — a deterministic stratified 80/20 split.
Per class, one fifth (rounded down) of the records of that class go to the
test subset and the rest to the train subset.  The fixed seed makes the
library call a pure function of the data; the particular permutation it
uses is irrelevant to the claims, so the identity permutation is used. -/
def stratifiedTestTrain {α : Type} (data : List (α × Fin 2)) :
    List (α × Fin 2) × List (α × Fin 2) :=
  let c0 := classMembers data 0
  let c1 := classMembers data 1
  (c0.take (c0.length / 5) ++ c1.take (c1.length / 5),
   c0.drop (c0.length / 5) ++ c1.drop (c1.length / 5))

/-- `accuracy_score(y_true, y_pred)`: the fraction of exact label matches. -/
def accuracy_score (ytrue ypred : List (Fin 2)) : ℚ :=
  (((ytrue.zip ypred).countP (fun r => r.1 == r.2) : ℕ) : ℚ) / (ytrue.length : ℚ)

/-- `confusion_matrix(y_test, y_pred)` for binary labels: the 2x2 matrix
whose `(a, p)` cell counts the test records with actual class `a` and
predicted class `p`; index `0` (the negative class) comes first. -/
def confusion_matrix (ytrue ypred : List (Fin 2)) (a p : Fin 2) : ℕ :=
  (ytrue.zip ypred).countP (fun r => r.1 == a && r.2 == p)

/-- The three model families compared at the end of the script: the tuned
random forest, `LogisticRegression(max_iter=1000)`, and
`GradientBoostingClassifier()` with library defaults. -/
inductive ModelSpec where
  | randomForest (params : RFParams)
  | logisticRegression (max_iter : ℕ)
  | gradientBoosting
deriving DecidableEq

/-- A named classifier as held in the `models` dict: its hyperparameter
specification and its fitted state (`none` before any `fit` call). -/
structure NamedClf (M : Type) where
  name : String
  spec : ModelSpec
  fitted : Option M

/-- `clf.fit(X_train, y_train)`: (re)train the classifier on the training
split, overwriting its fitted state. -/
def fitClf {M D : Type} (train : ModelSpec → D → M) (d : D) (c : NamedClf M) : NamedClf M :=
  { c with fitted := some (train c.spec d) }

/-- `best_model` (line 80): the estimator refit by the grid search on the
whole training split with the selected hyperparameters. -/
def bestClf {M D : Type} (train : ModelSpec → D → M) (dtrain : D) (bp : RFParams) : NamedClf M :=
  fitClf train dtrain
    { name := "RandomForest", spec := ModelSpec.randomForest bp, fitted := none }

/-- The `models` dict of the comparison section (lines 106-110): the tuned
best model itself under the key `RandomForest`, plus the two fresh
baselines. -/
def comparisonModels {M : Type} (best : NamedClf M) : List (NamedClf M) :=
  [ { best with name := "RandomForest" },
    { name := "LogisticRegression", spec := ModelSpec.logisticRegression 1000, fitted := none },
    { name := "GradientBoosting", spec := ModelSpec.gradientBoosting, fitted := none } ]

/-- One iteration of the comparison loop (lines 113-117): fit the
classifier on the train split, predict on the test split, record the
accuracy under the name of the model. -/
def evalOne {M D TX : Type} (train : ModelSpec → D → M) (predict : M → TX → List (Fin 2))
    (dtrain : D) (xtest : TX) (ytest : List (Fin 2)) (c : NamedClf M) :
    NamedClf M × (String × ℚ) :=
  let c2 := fitClf train dtrain c
  (c2, (c.name, accuracy_score ytest (predict (train c.spec dtrain) xtest)))

/-- The whole comparison loop: each entry of the `models` dict is fitted
and scored in turn. -/
def comparisonLoop {M D TX : Type} (train : ModelSpec → D → M)
    (predict : M → TX → List (Fin 2)) (dtrain : D) (xtest : TX) (ytest : List (Fin 2))
    (ms : List (NamedClf M)) : List (NamedClf M × (String × ℚ)) :=
  ms.map (evalOne train predict dtrain xtest ytest)

/-- Modelled from the spec: `best_model.feature_importances_` — the
raw non-negative per-feature scores of the ensemble normalized to sum to one.
The raw scores are internal to the library; normalization divides each by
their total. -/
def normalizeImportances (raw : List ℚ) : List ℚ :=
  raw.map (fun v => v / raw.sum)

/-- The association of each importance score with its descriptor name in
the fixed order (lines 98-99). -/
def featureImportanceReport (raw : List ℚ) : List (String × ℚ) :=
  descriptor_names.zip (normalizeImportances raw)

/-- A concrete instantiation of the chemistry collaborator used to
exercise the pipeline on closed inputs: the empty string fails to parse,
every other string parses, and the five descriptors are constant. -/
def toyChem : Chem Unit where
  MolFromSmiles s := if s.length = 0 then none else some ()
  MolWt _ := 10
  MolLogP _ := 1
  NumHDonors _ := 2
  NumHAcceptors _ := 3
  TPSA _ := 4

/-- A concrete raw input: one parsable identifier, one unparsable (empty)
identifier, one missing identifier. -/
def exRaw : List RawRow := [⟨some ("CC"), 1⟩, ⟨some (""), 0⟩, ⟨none, 1⟩]

/-- A concrete table whose label column is absent. -/
def exTable : RawTable := ⟨true, false, [⟨some ("CC"), 0⟩]⟩

/-- A concrete table whose identifier column is absent. -/
def exTableNoSmiles : RawTable := ⟨false, true, [⟨some ("CC"), 0⟩]⟩

/-- Concrete actual test labels for exercising the confusion matrix. -/
def exYtrue : List (Fin 2) := [0, 1, 1, 0]

/-- Concrete predicted test labels for exercising the confusion matrix. -/
def exYpred : List (Fin 2) := [1, 1, 0, 0]

/-- Concrete raw importance scores for exercising normalization. -/
def exImportances : List ℚ := [2, 1, 1, 0, 1]

/-- A concrete labelled dataset (five records per class, no duplicates)
for exercising the stratified split. -/
def exSplitData : List (ℚ × Fin 2) :=
  [(1, 0), (2, 0), (3, 0), (4, 0), (5, 0), (6, 1), (7, 1), (8, 1), (9, 1), (10, 1)]

end BBBP

namespace BBBP

/-- Rows produced by `addFeatures` carry exactly the descriptor vector
computed from their own identifier. -/
theorem mem_addFeatures_features {Mol : Type} {C : Chem Mol} {rows : List Row} {r : FeatRow}
    (h : r ∈ addFeatures C rows) : r.features = compute_descriptors C r.smiles := by
  rcases List.mem_map.1 h with ⟨a, _, rfl⟩
  rfl

/-- `compute_descriptors` is defined exactly when parsing succeeds. -/
theorem compute_descriptors_isSome {Mol : Type} (C : Chem Mol) (s : String) :
    (compute_descriptors C s).isSome = (C.MolFromSmiles s).isSome := by
  unfold compute_descriptors
  cases C.MolFromSmiles s <;> rfl

/-- Every row surviving the cleaning pipeline carries the descriptor
vector computed from its identifier, and its identifier parses. -/
theorem cleanRows_spec {Mol : Type} {C : Chem Mol} {raw : List RawRow} {r : FeatRow}
    (h : r ∈ cleanRows C raw) :
    r.features = compute_descriptors C r.smiles ∧ (C.MolFromSmiles r.smiles).isSome = true := by
  unfold cleanRows filterValidSmiles at h
  rcases List.mem_filter.1 h with ⟨h1, hvalid⟩
  unfold dropnaFeatures at h1
  rcases List.mem_filter.1 h1 with ⟨h2, _⟩
  exact ⟨mem_addFeatures_features h2, hvalid⟩

/-- Every row surviving the cleaning pipeline has a defined feature
vector of exactly the five descriptors in fixed order. -/
theorem cleanRows_features_shape {Mol : Type} {C : Chem Mol} {raw : List RawRow} {r : FeatRow}
    (h : r ∈ cleanRows C raw) :
    ∃ mol, C.MolFromSmiles r.smiles = some mol ∧
      r.features = some [C.MolWt mol, C.MolLogP mol, (C.NumHDonors mol : ℚ),
        (C.NumHAcceptors mol : ℚ), C.TPSA mol] := by
  obtain ⟨hfeat, hvalid⟩ := cleanRows_spec h
  obtain ⟨mol, hmol⟩ := Option.isSome_iff_exists.1 hvalid
  refine ⟨mol, hmol, ?_⟩
  rw [hfeat]
  simp [compute_descriptors, hmol]

/-- Claim C1: every input record whose identifier fails structural parsing
is absent from the final feature matrix `X` and label vector `y` — every
surviving row has a successfully parsing identifier and a defined feature
vector, and `X` and `y` stay aligned row for row. -/
theorem parse_failures_absent_from_X_y {Mol : Type} (C : Chem Mol) (raw : List RawRow) :
    (∀ r ∈ cleanRows C raw, C.MolFromSmiles r.smiles ≠ none ∧ ∃ v, r.features = some v) ∧
    (X C raw).length = (y C raw).length := by
  constructor
  · intro r hr
    obtain ⟨hfeat, hvalid⟩ := cleanRows_spec hr
    refine ⟨Option.ne_none_iff_isSome.2 hvalid, ?_⟩
    apply Option.isSome_iff_exists.1
    rw [hfeat, compute_descriptors_isSome]
    exact hvalid
  · simp [X, y]

/-- Concrete instance of claim C1: in `exRaw` the record with identifier
`CC` survives with a defined feature vector. -/
theorem parse_failures_absent_from_X_y_witness :
    toyChem.MolFromSmiles ("CC") ≠ none ∧
      ∃ v, (FeatRow.mk ("CC") 1 (some [10, 1, 2, 3, 4])).features = some v :=
  (parse_failures_absent_from_X_y toyChem exRaw).1
    (FeatRow.mk ("CC") 1 (some [10, 1, 2, 3, 4])) (by decide)

/-- Claim C2: `descriptor_names` has the five descriptors in fixed order;
for every identifier that parses, `compute_descriptors` returns exactly
the five descriptors in that order; every row of the feature matrix has
exactly five entries; and the assembler expands each surviving row into
the five named columns in the same order. -/
theorem feature_rows_five_descriptors {Mol : Type} (C : Chem Mol) (raw : List RawRow) :
    descriptor_names.length = 5 ∧
    (∀ s mol, C.MolFromSmiles s = some mol →
        compute_descriptors C s =
          some [C.MolWt mol, C.MolLogP mol, (C.NumHDonors mol : ℚ),
                (C.NumHAcceptors mol : ℚ), C.TPSA mol]) ∧
    (∀ v ∈ X C raw, v.length = 5) ∧
    (∀ row ∈ features_df C raw,
        row.map Prod.fst = descriptor_names ∧ row.map Prod.snd ∈ X C raw) := by
  refine ⟨rfl, ?_, ?_, ?_⟩
  · intro s mol h
    simp [compute_descriptors, h]
  · intro v hv
    rcases List.mem_map.1 hv with ⟨r, hr, rfl⟩
    obtain ⟨mol, _, hfeat⟩ := cleanRows_features_shape hr
    rw [hfeat]
    rfl
  · intro row hrow
    rcases List.mem_map.1 hrow with ⟨r, hr, rfl⟩
    obtain ⟨mol, _, hfeat⟩ := cleanRows_features_shape hr
    constructor
    · apply List.map_fst_zip
      rw [hfeat]
      rfl
    · rw [List.map_snd_zip]
      · exact List.mem_map_of_mem _ hr
      · rw [hfeat]
        rfl

/-- Concrete instance of claim C2: the identifier `CC` parses under
`toyChem` and yields the five descriptors in fixed order. -/
theorem feature_rows_five_descriptors_witness :
    compute_descriptors toyChem ("CC")
      = some [toyChem.MolWt (), toyChem.MolLogP (), (toyChem.NumHDonors () : ℚ),
              (toyChem.NumHAcceptors () : ℚ), toyChem.TPSA ()] ∧
    descriptor_names.length = 5 :=
  ⟨(feature_rows_five_descriptors toyChem exRaw).2.1 ("CC") () (by decide),
   (feature_rows_five_descriptors toyChem exRaw).1⟩

/-- Claim C8: an identifier that is not a valid molecular encoding makes
`compute_descriptors` return `None` (no exception escapes the extraction
stage), and both the feature-undefined drop and the validity re-filter
exclude the record from the dataset. -/
theorem invalid_identifier_excluded {Mol : Type} (C : Chem Mol) (s : String)
    (h : C.MolFromSmiles s = none) :
    compute_descriptors C s = none ∧
    (∀ raw : List RawRow, ∀ r ∈ cleanRowsNoRefilter C raw, r.smiles ≠ s) ∧
    (∀ raw : List RawRow, ∀ r ∈ cleanRows C raw, r.smiles ≠ s) := by
  refine ⟨by simp [compute_descriptors, h], ?_, ?_⟩
  · intro raw r hr heq
    unfold cleanRowsNoRefilter dropnaFeatures at hr
    rcases List.mem_filter.1 hr with ⟨h1, hsome⟩
    have hf := mem_addFeatures_features h1
    rw [heq] at hf
    rw [hf] at hsome
    simp [compute_descriptors, h] at hsome
  · intro raw r hr heq
    obtain ⟨_, hvalid⟩ := cleanRows_spec hr
    rw [heq, h] at hvalid
    simp at hvalid

/-- Concrete instance of claim C8: the empty identifier in `exRaw` is
excluded and its descriptor computation returns `None`. -/
theorem invalid_identifier_excluded_witness :
    compute_descriptors toyChem ("") = none ∧
    ∀ r ∈ cleanRows toyChem exRaw, r.smiles ≠ ("") := by
  have h := invalid_identifier_excluded toyChem ("") (by decide)
  exact ⟨h.1, h.2.2 exRaw⟩

/-- Claim C10: the second validity filter (re-parsing each surviving
identifier) removes no rows — every row surviving the feature-undefined
drop already has a parsing identifier — so the pipeline output `X`, `y`
is unchanged when lines 35-37 are removed. -/
theorem refilter_is_noop {Mol : Type} (C : Chem Mol) (raw : List RawRow) (rows : List Row) :
    filterValidSmiles C (dropnaFeatures (addFeatures C rows))
      = dropnaFeatures (addFeatures C rows) ∧
    cleanRows C raw = cleanRowsNoRefilter C raw ∧
    X C raw = XnoRefilter C raw ∧ y C raw = ynoRefilter C raw := by
  have key : ∀ rs : List Row,
      filterValidSmiles C (dropnaFeatures (addFeatures C rs))
        = dropnaFeatures (addFeatures C rs) := by
    intro rs
    unfold filterValidSmiles
    apply List.filter_eq_self.2
    intro r hr
    unfold dropnaFeatures at hr
    rcases List.mem_filter.1 hr with ⟨h1, hsome⟩
    have hf := mem_addFeatures_features h1
    rw [hf] at hsome
    rw [← compute_descriptors_isSome]
    exact hsome
  have hclean : cleanRows C raw = cleanRowsNoRefilter C raw := key (dropnaSmiles raw)
  exact ⟨key rows, hclean, by rw [X, XnoRefilter, hclean], by rw [y, ynoRefilter, hclean]⟩

end BBBP

namespace BBBP

/-- Claim C3 counterexample: on `exTable` the label column is absent and the
run does fail with a data-format error, but only after descriptor extraction
has been performed (one descriptor computation, not zero) — so a missing
required column does not always abort before any computation. -/
theorem missing_label_after_extraction :
    exTable.hasLabel = false ∧
    (runScript toyChem exTable).2 = Except.error (ScriptError.missingColumn ("p_np")) ∧
    (runScript toyChem exTable).1 = 1 ∧ (runScript toyChem exTable).1 ≠ 0 :=
  ⟨rfl, rfl, rfl, by decide⟩

/-- Claim C3 (amended): if the identifier column is absent, the run fails with
a data-format error before any computation (zero descriptor computations); if
the identifier column is present but the label column is absent, the run fails
with a data-format error before the split, training and evaluation, but only
after descriptor extraction has run over every row with a present identifier. -/
theorem missing_column_aborts {Mol : Type} (C : Chem Mol) (tbl : RawTable) :
    (tbl.hasSmiles = false →
      runScript C tbl = (0, Except.error (ScriptError.missingColumn ("smiles")))) ∧
    (tbl.hasSmiles = true → tbl.hasLabel = false →
      (runScript C tbl).2 = Except.error (ScriptError.missingColumn ("p_np")) ∧
      (runScript C tbl).1 = (dropnaSmiles tbl.rows).length) := by
  constructor
  · intro h
    simp [runScript, h]
  · intro h1 h2
    simp [runScript, h1, h2]

/-- Concrete instance of claim C3 (amended): the missing-identifier table
aborts with zero descriptor computations; the missing-label table fails at the
label access. -/
theorem missing_column_aborts_witness :
    runScript toyChem exTableNoSmiles
      = (0, Except.error (ScriptError.missingColumn ("smiles"))) ∧
    (runScript toyChem exTable).2 = Except.error (ScriptError.missingColumn ("p_np")) :=
  ⟨(missing_column_aborts toyChem exTableNoSmiles).1 rfl,
   ((missing_column_aborts toyChem exTable).2 rfl rfl).1⟩

/-- Counting a list of binary label pairs cell by cell over the 2x2 grid
accounts for every element exactly once. -/
theorem sum_countP_cells (l : List (Fin 2 × Fin 2)) :
    ∑ a : Fin 2, ∑ p : Fin 2, l.countP (fun r => r.1 == a && r.2 == p) = l.length := by
  induction l with
  | nil => simp
  | cons x xs ih =>
    rcases x with ⟨xa, xp⟩
    simp only [List.countP_cons, Fin.sum_univ_two, List.length_cons]
    simp only [Fin.sum_univ_two] at ih
    fin_cases xa <;> fin_cases xp <;> simp <;> omega

/-- Claim C6: the confusion matrix is 2x2, indexed by actual class then
predicted class with the negative class first, and its four cell counts
sum to exactly the number of records in the held-out test subset. -/
theorem confusion_matrix_sum (ytrue ypred : List (Fin 2))
    (h : ytrue.length = ypred.length) :
    (∀ a p : Fin 2, confusion_matrix ytrue ypred a p
        = (ytrue.zip ypred).countP (fun r => r.1 == a && r.2 == p)) ∧
    ∑ a : Fin 2, ∑ p : Fin 2, confusion_matrix ytrue ypred a p = ytrue.length := by
  refine ⟨fun a p => rfl, ?_⟩
  unfold confusion_matrix
  rw [sum_countP_cells, List.length_zip]
  omega

/-- Concrete instance of claim C6: on four test records the confusion
matrix cells sum to four. -/
theorem confusion_matrix_sum_witness :
    exYtrue.length = exYpred.length ∧
    ∑ a : Fin 2, ∑ p : Fin 2, confusion_matrix exYtrue exYpred a p = exYtrue.length :=
  ⟨rfl, (confusion_matrix_sum exYtrue exYpred rfl).2⟩

/-- Dividing every element of a list by a constant divides its sum. -/
theorem sum_map_div (l : List ℚ) (c : ℚ) : (l.map (fun v => v / c)).sum = l.sum / c := by
  induction l with
  | nil => simp
  | cons a as ih => simp [ih, add_div]

/-- Claim C9: the normalized per-feature importance scores are all
non-negative and sum to exactly 1 across the five descriptors, and the
report associates each score with its descriptor name in the fixed order. -/
theorem importances_normalized (raw : List ℚ) (hlen : raw.length = 5)
    (hpos : ∀ v ∈ raw, 0 ≤ v) (hsum : 0 < raw.sum) :
    (∀ v ∈ normalizeImportances raw, 0 ≤ v) ∧
    (normalizeImportances raw).sum = 1 ∧
    (normalizeImportances raw).length = descriptor_names.length ∧
    (featureImportanceReport raw).map Prod.fst = descriptor_names ∧
    (featureImportanceReport raw).map Prod.snd = normalizeImportances raw := by
  have hlen2 : (normalizeImportances raw).length = 5 := by
    simp [normalizeImportances, hlen]
  refine ⟨?_, ?_, ?_, ?_, ?_⟩
  · intro v hv
    rcases List.mem_map.1 hv with ⟨w, hw, rfl⟩
    exact div_nonneg (hpos w hw) (le_of_lt hsum)
  · unfold normalizeImportances
    rw [sum_map_div, div_self (ne_of_gt hsum)]
  · rw [hlen2]
    rfl
  · apply List.map_fst_zip
    rw [hlen2]
    decide
  · apply List.map_snd_zip
    rw [hlen2]
    decide

/-- Concrete instance of claim C9: the raw scores `[2, 1, 1, 0, 1]`
normalize to a unit-sum vector reported under the descriptor names. -/
theorem importances_normalized_witness :
    (normalizeImportances exImportances).sum = 1 ∧
    (featureImportanceReport exImportances).map Prod.fst = descriptor_names := by
  have hpos : ∀ v ∈ exImportances, 0 ≤ v := by
    intro v hv
    fin_cases hv <;> norm_num
  have hsum : 0 < exImportances.sum := by
    norm_num [exImportances, List.sum_cons, List.sum_nil]
  have h := importances_normalized exImportances rfl hpos hsum
  exact ⟨h.2.1, h.2.2.2.1⟩

end BBBP

namespace BBBP

/-- The running maximum returned by `argmaxFrom` scores at least its seed. -/
theorem argmaxFrom_ge_seed (score : RFParams → ℚ) :
    ∀ (l : List RFParams) (best : RFParams),
      score best ≤ score (argmaxFrom score best l) := by
  intro l
  induction l with
  | nil => intro best; exact le_refl _
  | cons q qs ih =>
    intro best
    show score best ≤ score (argmaxFrom score (if score best < score q then q else best) qs)
    by_cases h : score best < score q
    · rw [if_pos h]
      exact le_trans (le_of_lt h) (ih q)
    · rw [if_neg h]
      exact ih best

/-- The running maximum scores at least every candidate in the list. -/
theorem argmaxFrom_ge_mem (score : RFParams → ℚ) :
    ∀ (l : List RFParams) (best : RFParams), ∀ p ∈ l,
      score p ≤ score (argmaxFrom score best l) := by
  intro l
  induction l with
  | nil => intro best p hp; cases hp
  | cons q qs ih =>
    intro best p hp
    show score p ≤ score (argmaxFrom score (if score best < score q then q else best) qs)
    rcases List.mem_cons.1 hp with rfl | hp2
    · have hstep : score p ≤ score (if score best < score p then p else best) := by
        by_cases h : score best < score p
        · rw [if_pos h]
        · rw [if_neg h]
          exact le_of_not_lt h
      exact le_trans hstep (argmaxFrom_ge_seed score qs _)
    · exact ih _ p hp2

/-- The running maximum is its seed or one of the candidates. -/
theorem argmaxFrom_mem (score : RFParams → ℚ) :
    ∀ (l : List RFParams) (best : RFParams),
      argmaxFrom score best l = best ∨ argmaxFrom score best l ∈ l := by
  intro l
  induction l with
  | nil => intro best; exact Or.inl rfl
  | cons q qs ih =>
    intro best
    show argmaxFrom score (if score best < score q then q else best) qs = best
        ∨ argmaxFrom score (if score best < score q then q else best) qs ∈ q :: qs
    rcases ih (if score best < score q then q else best) with h | h
    · rw [h]
      by_cases hc : score best < score q
      · rw [if_pos hc]
        exact Or.inr (List.mem_cons_self q qs)
      · rw [if_neg hc]
        exact Or.inl rfl
    · exact Or.inr (List.mem_cons_of_mem q h)

/-- Whatever `selectBest` returns belongs to the candidate list and scores
at least every candidate in it. -/
theorem selectBest_spec (score : RFParams → ℚ) (l : List RFParams) (p : RFParams)
    (h : selectBest score l = some p) :
    p ∈ l ∧ ∀ q ∈ l, score q ≤ score p := by
  cases l with
  | nil => simp [selectBest] at h
  | cons a as =>
    have hp : p = argmaxFrom score a as := by
      have := h.symm
      simpa [selectBest] using this
    subst hp
    constructor
    · rcases argmaxFrom_mem score as a with h1 | h1
      · rw [h1]
        exact List.mem_cons_self a as
      · exact List.mem_cons_of_mem a h1
    · intro q hq
      rcases List.mem_cons.1 hq with rfl | hq2
      · exact argmaxFrom_ge_seed score as q
      · exact argmaxFrom_ge_mem score as a q hq2

/-- The concrete grid is non-empty, so the search always selects some
combination. -/
theorem gridSearchBest_isSome (score : RFParams → ℚ) :
    ∃ best, gridSearchBest score = some best := by
  cases h : paramCombinations with
  | nil => exact absurd h (by decide)
  | cons a as =>
    refine ⟨argmaxFrom score a as, ?_⟩
    show selectBest score paramCombinations = some (argmaxFrom score a as)
    rw [h]
    rfl

/-- Claim C4: the hyperparameter grid is exhaustive with exactly 48
combinations — tree count 100 or 200, max depth unbounded or 10 or 20,
min samples to split 2 or 5, min samples per leaf 1 or 2, feature-sampling
strategy sqrt or log2 — each combination is scored by
the mean of its five cross-validation fold accuracies on the training
subset, and the search selects a grid combination with the highest mean
accuracy. -/
theorem grid_search_exhaustive_48 (foldAcc : RFParams → Fin 5 → ℚ) :
    paramCombinations.length = 48 ∧
    (∀ p : RFParams,
        p.n_estimators ∈ param_grid_n_estimators →
        p.max_depth ∈ param_grid_max_depth →
        p.min_samples_split ∈ param_grid_min_samples_split →
        p.min_samples_leaf ∈ param_grid_min_samples_leaf →
        p.max_features ∈ param_grid_max_features →
        p ∈ paramCombinations) ∧
    (∀ p ∈ paramCombinations,
        p.n_estimators ∈ param_grid_n_estimators ∧
        p.max_depth ∈ param_grid_max_depth ∧
        p.min_samples_split ∈ param_grid_min_samples_split ∧
        p.min_samples_leaf ∈ param_grid_min_samples_leaf ∧
        p.max_features ∈ param_grid_max_features) ∧
    (∀ p, meanCVAccuracy foldAcc p = (∑ i : Fin 5, foldAcc p i) / 5) ∧
    (∃ best, gridSearchBest (meanCVAccuracy foldAcc) = some best ∧
        best ∈ paramCombinations ∧
        ∀ p ∈ paramCombinations,
          meanCVAccuracy foldAcc p ≤ meanCVAccuracy foldAcc best) := by
  refine ⟨by decide, ?_, by decide, fun p => rfl, ?_⟩
  · rintro ⟨n, d, s, l, mf⟩ h1 h2 h3 h4 h5
    simp only [param_grid_n_estimators, param_grid_max_depth, param_grid_min_samples_split,
      param_grid_min_samples_leaf, param_grid_max_features, List.mem_cons,
      List.not_mem_nil, or_false] at h1 h2 h3 h4 h5
    rcases h1 with rfl | rfl <;> rcases h2 with rfl | rfl | rfl <;>
      rcases h3 with rfl | rfl <;> rcases h4 with rfl | rfl <;>
      rcases h5 with rfl | rfl <;> decide
  · obtain ⟨best, hb⟩ := gridSearchBest_isSome (meanCVAccuracy foldAcc)
    obtain ⟨hmem, hmax⟩ := selectBest_spec _ _ _ hb
    exact ⟨best, hb, hmem, hmax⟩

/-- Concrete instance of claim C4: a combination assembled from grid values
is in the enumerated grid, which has exactly 48 combinations. -/
theorem grid_search_exhaustive_48_witness :
    RFParams.mk 200 (some 10) 5 2 MaxFeatures.log2 ∈ paramCombinations ∧
    paramCombinations.length = 48 :=
  ⟨(grid_search_exhaustive_48 (fun _ _ => 0)).2.1
      (RFParams.mk 200 (some 10) 5 2 MaxFeatures.log2)
      (by decide) (by decide) (by decide) (by decide) (by decide),
   (grid_search_exhaustive_48 (fun _ _ => 0)).1⟩

/-- Claim C7: in the comparison loop each of the three models is trained on
the train split and evaluated on the test split independently — every
reported accuracy is a function only of the own specification of that model and the
shared splits only — and although the loop refits the tuned ensemble, the
refit on the same training split with the same hyperparameters leaves the
model the Evaluator scored unchanged. -/
theorem comparison_independent {M D TX : Type} (train : ModelSpec → D → M)
    (predict : M → TX → List (Fin 2)) (dtrain : D) (xtest : TX)
    (ytest : List (Fin 2)) (bp : RFParams) :
    (comparisonLoop train predict dtrain xtest ytest
        (comparisonModels (bestClf train dtrain bp))).map Prod.fst
      = [bestClf train dtrain bp,
         fitClf train dtrain
           { name := "LogisticRegression", spec := ModelSpec.logisticRegression 1000,
             fitted := none },
         fitClf train dtrain
           { name := "GradientBoosting", spec := ModelSpec.gradientBoosting,
             fitted := none }] ∧
    (comparisonLoop train predict dtrain xtest ytest
        (comparisonModels (bestClf train dtrain bp))).map Prod.snd
      = [(("RandomForest" : String),
          accuracy_score ytest (predict (train (ModelSpec.randomForest bp) dtrain) xtest)),
         (("LogisticRegression" : String),
          accuracy_score ytest (predict (train (ModelSpec.logisticRegression 1000) dtrain) xtest)),
         (("GradientBoosting" : String),
          accuracy_score ytest (predict (train ModelSpec.gradientBoosting dtrain) xtest))] := by
  constructor <;> rfl

end BBBP

namespace BBBP

/-- Members of a class bucket carry that class label. -/
theorem mem_classMembers {α : Type} {data : List (α × Fin 2)} {c : Fin 2}
    {r : α × Fin 2} (h : r ∈ classMembers data c) : r.2 = c := by
  rcases List.mem_filter.1 h with ⟨_, hc⟩
  simpa using hc

/-- Filtering a list drawn from one class bucket by class label keeps
everything for that class and nothing for the other class. -/
theorem filter_class_of_subset {α : Type} {data : List (α × Fin 2)} {c : Fin 2}
    {l : List (α × Fin 2)} (hsub : l ⊆ classMembers data c) :
    l.filter (fun r => r.2 == c) = l ∧
    ∀ cOther : Fin 2, cOther ≠ c → l.filter (fun r => r.2 == cOther) = [] := by
  constructor
  · apply List.filter_eq_self.2
    intro r hr
    simp [mem_classMembers (hsub hr)]
  · intro cOther hne
    apply List.filter_eq_nil_iff.2
    intro r hr hc
    rw [mem_classMembers (hsub hr)] at hc
    exact hne (beq_iff_eq.1 hc).symm

/-- The two class buckets together are a permutation of the data. -/
theorem classMembers_perm {α : Type} (data : List (α × Fin 2)) :
    (classMembers data 0 ++ classMembers data 1).Perm data := by
  have hcongr : classMembers data 1 = data.filter (fun r => !(r.2 == (0 : Fin 2))) := by
    unfold classMembers
    apply List.filter_congr
    intro r _
    have hb : ∀ b : Fin 2, (b == (1 : Fin 2)) = !(b == (0 : Fin 2)) := by decide
    exact hb r.2
  rw [hcongr]
  exact List.filter_append_perm (fun r => r.2 == (0 : Fin 2)) data

/-- Claim C5: the stratified 80/20 split partitions the dataset — test and
train together are a permutation of the data and, on duplicate-free data,
are disjoint; per class the test subset receives one fifth of the records
of that class rounded down (within one sample of exact 20%) and the train
subset the rest; and the split is deterministic in its input. -/
theorem stratified_split_partition {α : Type} (data : List (α × Fin 2)) :
    ((stratifiedTestTrain data).1 ++ (stratifiedTestTrain data).2).Perm data ∧
    (∀ c : Fin 2,
      ((stratifiedTestTrain data).1.filter (fun r => r.2 == c)).length
        = (classMembers data c).length / 5 ∧
      ((stratifiedTestTrain data).2.filter (fun r => r.2 == c)).length
        = (classMembers data c).length - (classMembers data c).length / 5 ∧
      5 * ((classMembers data c).length / 5) ≤ (classMembers data c).length ∧
      (classMembers data c).length < 5 * ((classMembers data c).length / 5) + 5) ∧
    (data.Nodup → (stratifiedTestTrain data).1.Disjoint (stratifiedTestTrain data).2) ∧
    (∀ d2 : List (α × Fin 2), data = d2 → stratifiedTestTrain data = stratifiedTestTrain d2) := by
  have hperm : ((stratifiedTestTrain data).1 ++ (stratifiedTestTrain data).2).Perm data := by
    show (((classMembers data 0).take ((classMembers data 0).length / 5)
            ++ (classMembers data 1).take ((classMembers data 1).length / 5))
          ++ ((classMembers data 0).drop ((classMembers data 0).length / 5)
            ++ (classMembers data 1).drop ((classMembers data 1).length / 5))).Perm data
    have h1 : (((classMembers data 0).take ((classMembers data 0).length / 5)
            ++ (classMembers data 1).take ((classMembers data 1).length / 5))
          ++ ((classMembers data 0).drop ((classMembers data 0).length / 5)
            ++ (classMembers data 1).drop ((classMembers data 1).length / 5))).Perm
        (((classMembers data 0).take ((classMembers data 0).length / 5)
            ++ (classMembers data 0).drop ((classMembers data 0).length / 5))
          ++ ((classMembers data 1).take ((classMembers data 1).length / 5)
            ++ (classMembers data 1).drop ((classMembers data 1).length / 5))) := by
      rw [List.append_assoc, List.append_assoc]
      exact List.Perm.append_left _
        (List.perm_append_comm_assoc _ _ _)
    refine h1.trans ?_
    rw [List.take_append_drop, List.take_append_drop]
    exact classMembers_perm data
  refine ⟨hperm, ?_, ?_, fun d2 h => by rw [h]⟩
  · intro c
    have hsub0take := List.take_subset ((classMembers data 0).length / 5) (classMembers data 0)
    have hsub1take := List.take_subset ((classMembers data 1).length / 5) (classMembers data 1)
    have hsub0drop := List.drop_subset ((classMembers data 0).length / 5) (classMembers data 0)
    have hsub1drop := List.drop_subset ((classMembers data 1).length / 5) (classMembers data 1)
    have hdiv : ∀ n : ℕ, 5 * (n / 5) ≤ n ∧ n < 5 * (n / 5) + 5 := by
      intro n
      omega
    fin_cases c
    · refine ⟨?_, ?_, (hdiv _).1, (hdiv _).2⟩
      · show (((classMembers data 0).take ((classMembers data 0).length / 5)
              ++ (classMembers data 1).take ((classMembers data 1).length / 5)).filter
            (fun r => r.2 == (0 : Fin 2))).length = (classMembers data 0).length / 5
        rw [List.filter_append, (filter_class_of_subset hsub0take).1,
          (filter_class_of_subset hsub1take).2 0 (by decide), List.append_nil,
          List.length_take]
        exact Nat.min_eq_left (Nat.div_le_self _ _)
      · show (((classMembers data 0).drop ((classMembers data 0).length / 5)
              ++ (classMembers data 1).drop ((classMembers data 1).length / 5)).filter
            (fun r => r.2 == (0 : Fin 2))).length
          = (classMembers data 0).length - (classMembers data 0).length / 5
        rw [List.filter_append, (filter_class_of_subset hsub0drop).1,
          (filter_class_of_subset hsub1drop).2 0 (by decide), List.append_nil,
          List.length_drop]
    · refine ⟨?_, ?_, (hdiv _).1, (hdiv _).2⟩
      · show (((classMembers data 0).take ((classMembers data 0).length / 5)
              ++ (classMembers data 1).take ((classMembers data 1).length / 5)).filter
            (fun r => r.2 == (1 : Fin 2))).length = (classMembers data 1).length / 5
        rw [List.filter_append, (filter_class_of_subset hsub1take).1,
          (filter_class_of_subset hsub0take).2 1 (by decide), List.nil_append,
          List.length_take]
        exact Nat.min_eq_left (Nat.div_le_self _ _)
      · show (((classMembers data 0).drop ((classMembers data 0).length / 5)
              ++ (classMembers data 1).drop ((classMembers data 1).length / 5)).filter
            (fun r => r.2 == (1 : Fin 2))).length
          = (classMembers data 1).length - (classMembers data 1).length / 5
        rw [List.filter_append, (filter_class_of_subset hsub1drop).1,
          (filter_class_of_subset hsub0drop).2 1 (by decide), List.nil_append,
          List.length_drop]
  · intro hnodup
    have hnd : ((stratifiedTestTrain data).1 ++ (stratifiedTestTrain data).2).Nodup :=
      hperm.nodup_iff.2 hnodup
    exact (List.nodup_append.1 hnd).2.2

/-- Concrete instance of claim C5: on a duplicate-free ten-record dataset
the test and train subsets are disjoint and the split is deterministic. -/
theorem stratified_split_partition_witness :
    exSplitData.Nodup ∧
    (stratifiedTestTrain exSplitData).1.Disjoint (stratifiedTestTrain exSplitData).2 ∧
    stratifiedTestTrain exSplitData = stratifiedTestTrain exSplitData := by
  have hnd : exSplitData.Nodup := by decide
  exact ⟨hnd, (stratified_split_partition exSplitData).2.2.1 hnd,
    (stratified_split_partition exSplitData).2.2.2 exSplitData rfl⟩

end BBBP
